import Mathlib

/-!
Verification of the `api-queries` repository (YNHH VNA / Montage client).

This file gives a shallow embedding, in Lean 4, of the behavior of the two
scripts `api_queries.py` and `montage_query.py`:

* Python strings are modelled as `List Char` (or Lean `String` where only
  whole-name equality matters); `str.find`, slicing and `str.replace` are
  modelled by `findSub` / `pyFindD` / `pySlice` / `pyReplaceChar`;
  `str.lower` is modelled by `pyLower` (CPython lower-cases the full Unicode
  range; the scripts only rely on ASCII, which is what `pyLower` covers).
* The filesystem under one study's output directory is modelled by the
  folder names directly under `save_dir` plus the names under
  `save_dir\others`; every filesystem and HTTP side effect of
  `retrieve_study_from_id` is also recorded in an event trace.
* HTTP transports are modelled by server oracles (functions from the request
  data to the response), since the network is an external collaborator.
* Exceptions (`raise ValueError`) are modelled with `Except String`.

Definitions are translated from the Python source; comments quote the
corresponding source lines.
-/

/-! ### Python string primitives -/

/-- First index (if any) at which `pat` occurs as a contiguous substring of
`hay`; this is Python's `hay.find(pat)` restricted to the found case. -/
def findSub (hay pat : List Char) : Option Nat :=
  match hay with
  | [] => if pat.isPrefixOf ([] : List Char) then some 0 else none
  | _ :: t => if pat.isPrefixOf hay then some 0 else (findSub t pat).map (· + 1)

/-- Python's `hay.find(pat)`: the first occurrence index, or `-1`. -/
def pyFindD (hay pat : List Char) : Int :=
  match findSub hay pat with
  | some n => (n : Int)
  | none => -1

/-- Python's slice `l[a:b]`, including the negative-index convention. -/
def pySlice (l : List Char) (a b : Int) : List Char :=
  let n := l.length
  let lo : Nat := if a < 0 then (a + n).toNat else min a.toNat n
  let hi : Nat := if b < 0 then (b + n).toNat else min b.toNat n
  (l.take hi).drop lo

/-- Python's `txt.replace(a, r)` for a single-character pattern `a`
(each occurrence of `a` is replaced by the string `r`). -/
def pyReplaceChar (a : Char) (r : List Char) : List Char → List Char
  | [] => []
  | c :: t => (if c = a then r else [c]) ++ pyReplaceChar a r t

/-- Python's `str.lower` on one character, restricted to ASCII
(`A`-`Z`, i.e. code points 65-90, are shifted to `a`-`z`). -/
def pyLower (c : Char) : Char :=
  if h : 65 ≤ c.toNat ∧ c.toNat ≤ 90 then
    Char.ofNatAux (c.toNat + 32) (Or.inl (by omega))
  else c

/-- Python's `k in s` substring test (`True` iff `s.find(k) >= 0`). -/
def substrB (needle hay : List Char) : Bool :=
  (findSub hay needle).isSome

/-! ### The default series-name extractor of `retrieve_studies`

Source (`api_queries.py`, `retrieve_studies`, default `get_series_name`):
```
search = <the DicomAttribute/Value opening text below>
index = txt.find(search) + len(search)
series_name = txt[index:index + txt[index:].find("</Value>")].lower()
series_name = series_name.replace("/", "-")
series_name = series_name.replace("\\", "-")
series_name = series_name.replace(":", "-")
series_name = series_name.replace("?", "")
series_name = series_name.replace("*", "")
```
-/

/-- The fixed opening marker searched for in the metadata XML. -/
def seriesDescrMarker : String :=
  "<DicomAttribute tag=\"0008103E\" vr=\"LO\" keyword=\"SeriesDescription\">\r\n      <Value number=\"1\">"

/-- The closing marker `</Value>`. -/
def closeValue : String := "</Value>"

/-- The raw text sliced out of the metadata document
(`txt[index:index + txt[index:].find("</Value>")]`), before lower-casing
and character sanitization. -/
def extract_raw (txt : List Char) : List Char :=
  let index : Int := pyFindD txt seriesDescrMarker.data + (seriesDescrMarker.data.length : Int)
  pySlice txt index (index + pyFindD (pySlice txt index (txt.length : Int)) closeValue.data)

/-- The default `get_series_name`: extract, lower-case, then strip or
replace the path-unsafe characters in source order
(`/`→`-`, `\`→`-`, `:`→`-`, `?`→removed, `*`→removed). -/
def get_series_name (txt : List Char) : List Char :=
  pyReplaceChar '*' []
    (pyReplaceChar '?' []
      (pyReplaceChar ':' ['-']
        (pyReplaceChar '\\' ['-']
          (pyReplaceChar '/' ['-']
            ((extract_raw txt).map pyLower)))))

/-- `get_series_name` on Lean strings (used by the filesystem model). -/
def get_series_name_str (s : String) : String :=
  String.mk (get_series_name s.data)

/-! ### Lemmas about the string primitives -/

theorem uint32_le_iff_toNat_le (a b : UInt32) : a ≤ b ↔ a.toNat ≤ b.toNat := Iff.rfl

theorem char_isUpper_iff (c : Char) : c.isUpper = true ↔ (65 ≤ c.toNat ∧ c.toNat ≤ 90) := by
  simp only [Char.isUpper, Bool.and_eq_true, decide_eq_true_eq]
  constructor
  · rintro ⟨h1, h2⟩
    rw [GE.ge, uint32_le_iff_toNat_le] at h1
    rw [uint32_le_iff_toNat_le] at h2
    exact ⟨h1, h2⟩
  · rintro ⟨h1, h2⟩
    constructor
    · rw [GE.ge, uint32_le_iff_toNat_le]; exact h1
    · rw [uint32_le_iff_toNat_le]; exact h2

/-- Lower-cased characters are never (ASCII) upper-case letters. -/
theorem pyLower_isUpper (c : Char) : (pyLower c).isUpper = false := by
  cases h : (pyLower c).isUpper
  · rfl
  · exfalso
    have hb := (char_isUpper_iff _).mp h
    unfold pyLower at hb
    by_cases hc : 65 ≤ c.toNat ∧ c.toNat ≤ 90
    · rw [dif_pos hc] at hb
      have hn : (Char.ofNatAux (c.toNat + 32) (Or.inl (by omega))).toNat = c.toNat + 32 := rfl
      rw [hn] at hb
      omega
    · rw [dif_neg hc] at hb
      exact hc hb

/-- Characters of `pyReplaceChar a r l` come from `r`, or from `l` and
differ from the replaced character `a`. -/
theorem mem_pyReplaceChar {c a : Char} {r l : List Char}
    (h : c ∈ pyReplaceChar a r l) : c ∈ r ∨ (c ∈ l ∧ c ≠ a) := by
  induction l with
  | nil => simp [pyReplaceChar] at h
  | cons hd tl ih =>
    simp only [pyReplaceChar, List.mem_append] at h
    rcases h with h | h
    · by_cases he : hd = a
      · rw [if_pos he] at h
        exact Or.inl h
      · rw [if_neg he] at h
        rcases List.mem_singleton.mp h with rfl
        exact Or.inr ⟨List.mem_cons_self _ _, he⟩
    · rcases ih h with h2 | ⟨h2, h3⟩
      · exact Or.inl h2
      · exact Or.inr ⟨List.mem_cons_of_mem _ h2, h3⟩

/-- C4. For every input string, the default folder-name sanitizer
(`get_series_name`) produces a name containing none of the characters
`/`, `\`, `:`, `?`, `*` and no (ASCII) upper-case letters: the extracted
series description is lower-cased and each of those five characters is
either replaced by `-` or removed. -/
theorem get_series_name_sanitized (txt : List Char) (c : Char)
    (hc : c ∈ get_series_name txt) :
    c ≠ '/' ∧ c ≠ '\\' ∧ c ≠ ':' ∧ c ≠ '?' ∧ c ≠ '*' ∧ c.isUpper = false := by
  have hdash : ('-' : Char) ≠ '/' ∧ ('-' : Char) ≠ '\\' ∧ ('-' : Char) ≠ ':' ∧
      ('-' : Char) ≠ '?' ∧ ('-' : Char) ≠ '*' ∧ ('-' : Char).isUpper = false := by decide
  unfold get_series_name at hc
  rcases mem_pyReplaceChar hc with h | ⟨hc, hstar⟩
  · simp at h
  rcases mem_pyReplaceChar hc with h | ⟨hc, hq⟩
  · simp at h
  rcases mem_pyReplaceChar hc with h | ⟨hc, hcolon⟩
  · rcases List.mem_singleton.mp h with rfl; exact hdash
  rcases mem_pyReplaceChar hc with h | ⟨hc, hbslash⟩
  · rcases List.mem_singleton.mp h with rfl; exact hdash
  rcases mem_pyReplaceChar hc with h | ⟨hc, hslash⟩
  · rcases List.mem_singleton.mp h with rfl; exact hdash
  rcases List.mem_map.mp hc with ⟨d, _, rfl⟩
  exact ⟨hslash, hbslash, hcolon, hq, hstar, pyLower_isUpper d⟩

/-- Witness for C4 at a concrete metadata document. -/
theorem get_series_name_sanitized_witness :
    ('a' : Char) ≠ '/' ∧ ('a' : Char) ≠ '\\' ∧ ('a' : Char) ≠ ':' ∧
      ('a' : Char) ≠ '?' ∧ ('a' : Char) ≠ '*' ∧ ('a' : Char).isUpper = false :=
  get_series_name_sanitized (seriesDescrMarker ++ "Ab</Value>").data 'a' (by decide)

theorem isPrefixOf_append_self (M r : List Char) : M.isPrefixOf (M ++ r) = true := by
  induction M with
  | nil => simp [List.isPrefixOf]
  | cons a M ih => simp [List.isPrefixOf, ih]

theorem findSub_eq_some (pat : List Char) :
    ∀ (hay : List Char) (i : Nat),
      pat.isPrefixOf (hay.drop i) = true →
      (∀ j, j < i → pat.isPrefixOf (hay.drop j) = false) →
      findSub hay pat = some i := by
  intro hay
  induction hay with
  | nil =>
    intro i h1 h2
    rw [List.drop_nil] at h1
    cases i with
    | zero => simp [findSub, h1]
    | succ n =>
      exfalso
      have h0 := h2 0 (Nat.succ_pos n)
      rw [List.drop_nil, h1] at h0
      exact Bool.noConfusion h0
  | cons c t ih =>
    intro i h1 h2
    cases i with
    | zero =>
      rw [List.drop_zero] at h1
      simp [findSub, h1]
    | succ n =>
      have h0 : pat.isPrefixOf (c :: t) = false := by
        have := h2 0 (Nat.succ_pos n)
        rwa [List.drop_zero] at this
      have hrec : findSub t pat = some n := by
        apply ih
        · exact h1
        · intro j hj
          exact h2 (j + 1) (Nat.succ_lt_succ hj)
      simp [findSub, h0, hrec]

theorem drop_min_take (l : List Char) (a b : Nat) :
    ((l.take (min b l.length)).drop (min a l.length) : List Char) = (l.take b).drop a := by
  rcases Nat.le_total b l.length with hb | hb
  · rw [Nat.min_eq_left hb]
    rcases Nat.le_total a l.length with ha | ha
    · rw [Nat.min_eq_left ha]
    · rw [Nat.min_eq_right ha]
      rw [List.drop_eq_nil_of_le, List.drop_eq_nil_of_le]
      · calc (l.take b).length ≤ l.length := by
              rw [List.length_take]; exact Nat.min_le_right _ _
          _ ≤ a := ha
      · rw [List.length_take]; exact Nat.min_le_right _ _
  · rw [Nat.min_eq_right hb, List.take_length, List.take_of_length_le hb]
    rcases Nat.le_total a l.length with ha | ha
    · rw [Nat.min_eq_left ha]
    · rw [Nat.min_eq_right ha]
      rw [List.drop_eq_nil_of_le (Nat.le_refl _), List.drop_eq_nil_of_le ha]

theorem pySlice_natCast (l : List Char) (a b : Nat) :
    pySlice l (a : Int) (b : Int) = (l.take b).drop a := by
  unfold pySlice
  have ha : ¬ ((a : Int) < 0) := by omega
  have hb : ¬ ((b : Int) < 0) := by omega
  simp only [if_neg ha, if_neg hb, Int.toNat_natCast]
  exact drop_min_take l a b

theorem take_add_drop (A B : List Char) (m : Nat) :
    ((A ++ B).take (A.length + m)).drop A.length = B.take m := by
  induction A with
  | nil => simp
  | cons a A ih =>
    have harith : (a :: A).length + m = (A.length + m) + 1 := by
      simp [List.length_cons]; omega
    rw [List.cons_append, harith, List.take_succ_cons, List.length_cons, List.drop_succ_cons, ih]

/-- C8. For every metadata document of the form
`pre ++ marker ++ mid ++ endmarker ++ post` in which the opening marker first
occurs right after `pre` and the closing marker `</Value>` first occurs right
after `mid`, the extractor slices out exactly `mid` - the text lying between
the expected opening marker and the following closing marker - before
lower-casing and sanitization are applied. -/
theorem extract_raw_between_markers (pre mid post : List Char)
    (h1 : ∀ i, i < pre.length →
      seriesDescrMarker.data.isPrefixOf
        ((pre ++ seriesDescrMarker.data ++ mid ++ closeValue.data ++ post).drop i) = false)
    (h2 : ∀ j, j < mid.length →
      closeValue.data.isPrefixOf ((mid ++ closeValue.data ++ post).drop j) = false) :
    extract_raw (pre ++ seriesDescrMarker.data ++ mid ++ closeValue.data ++ post) = mid := by
  set M := seriesDescrMarker.data with hM
  set C := closeValue.data with hC
  set txt := pre ++ M ++ mid ++ C ++ post with htxt
  have htxt2 : txt = pre ++ (M ++ (mid ++ C ++ post)) := by
    simp [htxt, List.append_assoc]
  have hfind1 : findSub txt M = some pre.length := by
    apply findSub_eq_some
    · rw [htxt2, List.drop_left]
      exact isPrefixOf_append_self _ _
    · exact h1
  have hdrop : txt.drop (pre.length + M.length) = mid ++ C ++ post := by
    rw [htxt2, ← List.length_append pre M]
    have : pre ++ (M ++ (mid ++ C ++ post)) = (pre ++ M) ++ (mid ++ C ++ post) := by
      simp [List.append_assoc]
    rw [this, List.drop_left]
  have hfind2 : findSub (mid ++ C ++ post) C = some mid.length := by
    apply findSub_eq_some
    · have : (mid ++ C ++ post).drop mid.length = C ++ post := by
        rw [List.append_assoc, List.drop_left]
      rw [this]
      exact isPrefixOf_append_self _ _
    · exact h2
  unfold extract_raw
  rw [← hM, ← hC]
  rw [pyFindD, hfind1]
  have hlen : ((pre.length : Int) + (M.length : Int)) = ((pre.length + M.length : Nat) : Int) := by
    push_cast; ring
  show pySlice txt ((pre.length + M.length : Nat) : Int)
      (((pre.length + M.length : Nat) : Int) +
        pyFindD (pySlice txt ((pre.length + M.length : Nat) : Int) (txt.length : Int)) C) = mid
  rw [pySlice_natCast txt (pre.length + M.length) txt.length, List.take_length, hdrop, pyFindD, hfind2]
  have hlen2 : (((pre.length + M.length : Nat) : Int) + ((mid.length : Nat) : Int))
      = ((pre.length + M.length + mid.length : Nat) : Int) := by push_cast; ring
  show pySlice txt ((pre.length + M.length : Nat) : Int) (((pre.length + M.length : Nat) : Int) + ((mid.length : Nat) : Int)) = mid
  rw [hlen2, pySlice_natCast txt (pre.length + M.length) (pre.length + M.length + mid.length)]
  have hA : txt = (pre ++ M) ++ (mid ++ C ++ post) := by simp [htxt, List.append_assoc]
  have hAlen : pre.length + M.length = (pre ++ M).length := (List.length_append pre M).symm
  rw [hA, hAlen, take_add_drop]
  rw [List.append_assoc mid C post, List.take_left]

/-- Witness for C8 at a concrete document. -/
theorem extract_raw_between_markers_witness :
    extract_raw ("AB".data ++ seriesDescrMarker.data ++ "T1 Case".data ++ closeValue.data ++ "tail".data)
      = "T1 Case".data :=
  extract_raw_between_markers "AB".data "T1 Case".data "tail".data (by decide) (by decide)

/-! ### Folder-name collision resolution

Source (`api_queries.py`, `retrieve_study_from_id`):
```
while os.path.exists(save_dir + "\\" + series_name):
    series_name += "+"
```
`existing` stands for the set of sibling folder names already present under
`save_dir`.  Each loop iteration appends one `+`, so the candidate's length
grows by one each time; once it exceeds the length of every existing sibling
name the candidate can no longer collide.  `collisionFuel` is that bound, and
`resolveCollisionFuel` runs the loop for at most a given number of
iterations. -/

/-- The largest length of an existing sibling name. -/
def maxNameLen (existing : List String) : Nat :=
  (existing.map String.length).foldr max 0

/-- An iteration bound sufficient for the collision loop to reach a fresh
name: one more than the length deficit against the longest sibling. -/
def collisionFuel (existing : List String) (name : String) : Nat :=
  maxNameLen existing + 1 - name.length

/-- The collision loop, bounded by an iteration count. -/
def resolveCollisionFuel : Nat → List String → String → String
  | 0, _, name => name
  | fuel + 1, existing, name =>
    if name ∈ existing then resolveCollisionFuel fuel existing (name ++ "+") else name

/-- The collision loop of `retrieve_study_from_id`, run with sufficient fuel. -/
def resolveCollision (existing : List String) (name : String) : String :=
  resolveCollisionFuel (collisionFuel existing name) existing name

theorem length_le_maxNameLen {existing : List String} {name : String}
    (h : name ∈ existing) : name.length ≤ maxNameLen existing := by
  induction existing with
  | nil => cases h
  | cons a t ih =>
    rcases List.mem_cons.mp h with rfl | h
    · exact Nat.le_max_left _ _
    · exact Nat.le_trans (ih h) (Nat.le_max_right _ _)

theorem resolveCollisionFuel_not_mem {fuel : Nat} :
    ∀ {existing : List String} {name : String},
      maxNameLen existing < name.length + fuel →
      resolveCollisionFuel fuel existing name ∉ existing := by
  induction fuel with
  | zero =>
    intro existing name h
    show name ∉ existing
    intro hmem
    exact absurd (length_le_maxNameLen hmem) (by omega)
  | succ n ih =>
    intro existing name h
    unfold resolveCollisionFuel
    by_cases hmem : name ∈ existing
    · rw [if_pos hmem]
      apply ih
      rw [String.length_append]
      have : ("+" : String).length = 1 := rfl
      omega
    · rw [if_neg hmem]
      exact hmem

theorem resolveCollisionFuel_stable {fuel : Nat} :
    ∀ {existing : List String} {name : String} (k : Nat),
      maxNameLen existing < name.length + fuel →
      resolveCollisionFuel (fuel + k) existing name = resolveCollisionFuel fuel existing name := by
  induction fuel with
  | zero =>
    intro existing name k h
    have hnm : name ∉ existing := fun hmem => absurd (length_le_maxNameLen hmem) (by omega)
    cases k with
    | zero => rfl
    | succ m =>
      rw [Nat.zero_add]
      show resolveCollisionFuel (m + 1) existing name = resolveCollisionFuel 0 existing name
      unfold resolveCollisionFuel
      rw [if_neg hnm]
  | succ n ih =>
    intro existing name k h
    by_cases hmem : name ∈ existing
    · have harith : n + 1 + k = (n + k) + 1 := by omega
      rw [harith]
      show resolveCollisionFuel ((n + k) + 1) existing name
        = resolveCollisionFuel (n + 1) existing name
      unfold resolveCollisionFuel
      rw [if_pos hmem, if_pos hmem]
      apply ih
      rw [String.length_append]
      have : ("+" : String).length = 1 := rfl
      omega
    · have harith : n + 1 + k = (n + k) + 1 := by omega
      rw [harith]
      unfold resolveCollisionFuel
      rw [if_neg hmem, if_neg hmem]

/-- C1. The collision-resolution loop terminates - running it with any
amount of fuel beyond the sufficient bound `collisionFuel` changes nothing -
and the name it produces is distinct from every existing sibling name, so
sibling series folder names stay unique. -/
theorem resolveCollision_terminates_and_fresh (existing : List String) (name : String) :
    (∀ k, resolveCollisionFuel (collisionFuel existing name + k) existing name
        = resolveCollision existing name)
    ∧ resolveCollision existing name ∉ existing := by
  have hfuel : maxNameLen existing < name.length + collisionFuel existing name ∨
      maxNameLen existing < name.length := by
    unfold collisionFuel
    omega
  have hkey : maxNameLen existing < name.length + collisionFuel existing name := by
    rcases hfuel with h | h
    · exact h
    · omega
  constructor
  · intro k
    exact resolveCollisionFuel_stable k hkey
  · exact resolveCollisionFuel_not_mem hkey

/-! ### Model of `retrieve_study_from_id`

One study's output directory is modelled by the list `top` of folder names
directly under `save_dir` (series folders, and possibly `others`) together
with the list `others` of folder names under `save_dir\others`.  The server
is modelled per series: `meta` is the body text of the metadata response
(`none` models a non-200 response, for which `_retrieve_vna` returns `None`),
`renameOk` tells whether the `os.rename` to the sanitized name succeeds (the
`except` branch falls back to `UnknownProtocol`), and `inst` records, per
instance of the series, whether its HTTP retrieval succeeds (a non-200
instance response makes `_retrieve_vna` return `None` without writing any
file).  Every side effect is also logged in an event trace. -/

/-- Per-series server behavior observed by `retrieve_study_from_id`. -/
structure SeriesFetch where
  sid : String
  meta : Option String
  renameOk : Bool
  inst : List Bool
deriving DecidableEq

/-- One side effect of `retrieve_study_from_id`. -/
inductive Event
  /-- `shutil.rmtree(save_dir)` -/
  | rmtree
  /-- the `while os.path.exists(save_dir)` poll observing the folder gone -/
  | pollGone
  /-- `os.makedirs(series_dir)` -/
  | mkdir (name : String)
  /-- metadata HTTP GET for a series -/
  | httpMetadata (sid : String)
  /-- writing `metadata.xml` into the series folder -/
  | writeMeta (dir : String)
  /-- `os.rename` of a series folder -/
  | renameDir (old new : String)
  /-- instance HTTP GET (series id, instance index) -/
  | httpInstance (sid : String) (idx : Nat)
  /-- writing `temp.dcm` into the series folder -/
  | writeTemp (dir : String)
  /-- writing the anonymized `<idx>.dcm` -/
  | writeInst (dir : String) (idx : Nat)
  /-- deleting `temp.dcm` -/
  | removeTemp (dir : String)
  /-- `os.makedirs(save_dir + "\\others")` -/
  | mkdirOthers
  /-- `os.rename` of an excluded series folder into `others` -/
  | moveToOthers (name : String)
deriving DecidableEq

/-- Folders under `save_dir`: names at top level and names under `others`. -/
structure FS where
  top : List String
  others : List String
deriving DecidableEq

/-- Running state of one `retrieve_study_from_id` call. -/
structure RetState where
  top : List String
  others : List String
  events : List Event
  skipSer : Nat
  skipInst : Nat
  rmdir : List String
deriving DecidableEq

/-- Result of one `retrieve_study_from_id` call: the folders under
`save_dir` (`none` when the call returned before touching anything and the
folder did not exist), the event trace, and the counters. -/
structure RetrieveResult where
  fs : Option FS
  events : List Event
  skipSer : Nat
  skipInst : Nat
  rmdir : List String
deriving DecidableEq

/-- Events of the instance loop
(`for count, instance_id in enumerate(instance_dict[series_id])`), starting
at index `i`: one HTTP GET per instance; on success (`r` not `None`)
`_retrieve_vna` writes `temp.dcm`, anonymizes into `<count>.dcm` and removes
`temp.dcm`; on failure it returns without writing. -/
def instEvents (dir sid : String) : Nat → List Bool → List Event
  | _, [] => []
  | i, ok :: rest =>
    [Event.httpInstance sid i]
      ++ (if ok then [Event.writeTemp dir, Event.writeInst dir i, Event.removeTemp dir] else [])
      ++ instEvents dir sid (i + 1) rest

/-- Source: `if r is not None: skip_inst += 1` - the counter increments once
per instance whose retrieval SUCCEEDED (`_retrieve_vna` returns `None`
exactly on a non-200 response). -/
def countNotNone : List Bool → Nat
  | [] => 0
  | ok :: rest => (if ok then 1 else 0) + countNotNone rest

/-- The body of the `for series_id in instance_dict` loop. -/
def processSeries (gsn : String → String) (excludeTerms : Option (List String))
    (metadataOnly : Bool) (st : RetState) (s : SeriesFetch) : RetState :=
  -- series_dir = save_dir + "\\" + series_id; os.makedirs if absent
  let mkEvts := if s.sid ∈ st.top then ([] : List Event) else [Event.mkdir s.sid]
  let top1 := if s.sid ∈ st.top then st.top else st.top ++ [s.sid]
  match s.meta with
  | none =>
    -- `if r is None: skip_ser += 1 ... continue`
    { st with top := top1,
              events := st.events ++ mkEvts ++ [Event.httpMetadata s.sid],
              skipSer := st.skipSer + 1 }
  | some txt =>
    -- rename the folder based on the metadata, de-duplicating with `+`;
    -- on rename failure fall back to a de-duplicated "UnknownProtocol"
    let name :=
      if s.renameOk then resolveCollision top1 (gsn txt)
      else resolveCollision top1 "UnknownProtocol"
    let top2 := top1.filter (fun n => n ≠ s.sid) ++ [name]
    let evts2 := st.events ++ mkEvts
      ++ [Event.httpMetadata s.sid, Event.writeMeta s.sid, Event.renameDir s.sid name]
    -- `try: for exc_keyword in options['exclude_terms'] ... except: pass`
    -- (`excludeTerms = none` models a missing/None exclusion list, whose
    -- TypeError is swallowed)
    let excluded :=
      match excludeTerms with
      | none => false
      | some kws => kws.any (fun k => substrB k.data name.data)
    if excluded then
      { st with top := top2, events := evts2,
                skipSer := st.skipSer + 1, rmdir := st.rmdir ++ [name] }
    else if metadataOnly then
      { st with top := top2, events := evts2 }
    else
      { st with top := top2,
                events := evts2 ++ instEvents name s.sid 0 s.inst,
                skipInst := st.skipInst + countNotNone s.inst }

/-- The post-loop block.  Source (note the indentation: the move loop is
INSIDE the `if`, so it only runs when the `others` folder did not exist):
```
if len(rmdir)>0 and not os.path.exists(save_dir+"\\others"):
    os.makedirs(save_dir+"\\others")

    for d in rmdir:
        os.rename(save_dir + "\\" + d, save_dir + "\\others\\" + d)
``` -/
def moveAll : RetState → List String → RetState
  | st, [] => st
  | st, d :: rest =>
    moveAll
      { st with top := st.top.filter (fun n => n ≠ d),
                others := st.others ++ [d],
                events := st.events ++ [Event.moveToOthers d] } rest

def finishRun (st : RetState) : RetrieveResult :=
  if st.rmdir ≠ [] ∧ "others" ∉ st.top then
    let st1 := { st with top := st.top ++ ["others"], events := st.events ++ [Event.mkdirOthers] }
    let st2 := moveAll st1 st.rmdir
    { fs := some ⟨st2.top, st2.others⟩, events := st2.events,
      skipSer := st2.skipSer, skipInst := st2.skipInst, rmdir := st2.rmdir }
  else
    { fs := some ⟨st.top, st.others⟩, events := st.events,
      skipSer := st.skipSer, skipInst := st.skipInst, rmdir := st.rmdir }

/-- Model of `retrieve_study_from_id(user, pw, study_id, instance_dict,
save_dir, options, metadata_only, verbose, get_series_name)`.

`fs0` is the pre-existing content of `save_dir` (`none` when the folder does
not exist).  If it exists and `overwrite` is false the call prints and
returns at once.  If it exists and `overwrite` is true, `shutil.rmtree` is
called and the `while os.path.exists(save_dir): sleep(100)` poll observes
the (synchronously deleted) folder gone before the series loop starts. -/
def retrieve_study_from_id (gsn : String → String) (fs0 : Option FS)
    (seriesList : List SeriesFetch) (overwrite : Bool)
    (excludeTerms : Option (List String)) (metadataOnly : Bool) : RetrieveResult :=
  match fs0 with
  | some f =>
    if !overwrite then
      { fs := some f, events := [], skipSer := 0, skipInst := 0, rmdir := [] }
    else
      finishRun (seriesList.foldl (processSeries gsn excludeTerms metadataOnly)
        { top := [], others := [], events := [Event.rmtree, Event.pollGone],
          skipSer := 0, skipInst := 0, rmdir := [] })
  | none =>
    finishRun (seriesList.foldl (processSeries gsn excludeTerms metadataOnly)
      { top := [], others := [], events := [],
        skipSer := 0, skipInst := 0, rmdir := [] })

/-! ### Event-trace lemmas -/

theorem prefix_app2 (l a b : List Event) : l <+: l ++ a ++ b := by
  rw [List.append_assoc]
  exact List.prefix_append _ _

theorem prefix_app3 (l a b c : List Event) : l <+: l ++ a ++ b ++ c := by
  rw [List.append_assoc, List.append_assoc]
  exact List.prefix_append _ _

/-- Each series-loop iteration only appends to the event trace. -/
theorem processSeries_events_extend (gsn : String → String)
    (ex : Option (List String)) (mo : Bool) (st : RetState) (s : SeriesFetch) :
    st.events <+: (processSeries gsn ex mo st s).events := by
  unfold processSeries
  cases s.meta with
  | none =>
    exact prefix_app2 _ _ _
  | some txt =>
    simp only []
    split_ifs
    all_goals first
      | exact prefix_app3 _ _ _ _
      | exact prefix_app2 _ _ _

/-- The whole series loop only appends to the event trace. -/
theorem foldl_processSeries_events_extend (gsn : String → String)
    (ex : Option (List String)) (mo : Bool) :
    ∀ (ls : List SeriesFetch) (st : RetState),
      st.events <+: (ls.foldl (processSeries gsn ex mo) st).events := by
  intro ls
  induction ls with
  | nil => intro st; exact List.prefix_refl _
  | cons s rest ih =>
    intro st
    exact List.IsPrefix.trans (processSeries_events_extend gsn ex mo st s) (ih _)

theorem moveAll_events_extend : ∀ (ds : List String) (st : RetState),
    st.events <+: (moveAll st ds).events := by
  intro ds
  induction ds with
  | nil => intro st; exact List.prefix_refl _
  | cons d rest ih =>
    intro st
    refine List.IsPrefix.trans ?_ (ih _)
    exact List.prefix_append _ _

theorem finishRun_events_extend (st : RetState) :
    st.events <+: (finishRun st).events := by
  unfold finishRun
  split_ifs
  · refine List.IsPrefix.trans ?_ (moveAll_events_extend st.rmdir _)
    exact List.prefix_append _ _
  · exact List.prefix_refl _

/-- Recognizes series-folder creations in the trace. -/
def isMkdirEvt : Event → Bool
  | Event.mkdir _ => true
  | _ => false

/-- C5. For every study whose output folder already exists, with overwrite
enabled the first two effects of `retrieve_study_from_id` are the
`shutil.rmtree` deletion and the poll observing the folder gone, and every
series-folder creation (`os.makedirs`) occurs strictly later in the trace:
the old folder tree is removed and confirmed gone before any series folder
is created. -/
theorem overwrite_deletes_before_series (gsn : String → String) (f : FS)
    (series : List SeriesFetch) (ex : Option (List String)) (mo : Bool) :
    (retrieve_study_from_id gsn (some f) series true ex mo).events.take 2
        = [Event.rmtree, Event.pollGone]
    ∧ 2 ≤ (retrieve_study_from_id gsn (some f) series true ex mo).events.findIdx isMkdirEvt := by
  have hpre : [Event.rmtree, Event.pollGone]
      <+: (retrieve_study_from_id gsn (some f) series true ex mo).events := by
    unfold retrieve_study_from_id
    simp only [Bool.not_true, Bool.false_eq_true, if_false]
    refine List.IsPrefix.trans ?_ (finishRun_events_extend _)
    exact foldl_processSeries_events_extend gsn ex mo series
      { top := [], others := [], events := [Event.rmtree, Event.pollGone],
        skipSer := 0, skipInst := 0, rmdir := [] }
  rcases hpre with ⟨t, ht⟩
  constructor
  · rw [← ht]
    exact List.take_left' rfl
  · rw [← ht]
    rw [List.cons_append, List.cons_append, List.findIdx_cons, List.findIdx_cons]
    simp [isMkdirEvt]

/-- C3. For every study whose output folder already exists (and in
particular is non-empty), with overwrite disabled `retrieve_study_from_id`
returns at once: the folder contents are unchanged, the event trace is empty
(so no HTTP request is issued for the study), and nothing is counted. -/
theorem skip_existing_study (gsn : String → String) (f : FS)
    (series : List SeriesFetch) (ex : Option (List String)) (mo : Bool)
    (_hne : f.top ≠ []) :
    retrieve_study_from_id gsn (some f) series false ex mo
      = { fs := some f, events := [], skipSer := 0, skipInst := 0, rmdir := [] } := by
  unfold retrieve_study_from_id
  simp

/-- Witness for C3 at a concrete non-empty folder. -/
theorem skip_existing_study_witness :
    retrieve_study_from_id get_series_name_str (some ⟨["old series"], []⟩) [] false none false
      = { fs := some ⟨["old series"], []⟩, events := [], skipSer := 0, skipInst := 0, rmdir := [] } :=
  skip_existing_study get_series_name_str ⟨["old series"], []⟩ [] none false (by decide)

set_option maxRecDepth 10000

/-- A metadata document whose series description sanitizes to `others`. -/
def metaDocOthers : String := seriesDescrMarker ++ "Others" ++ closeValue

/-- A metadata document whose series description sanitizes to `sub t1`. -/
def metaDocSub : String := seriesDescrMarker ++ "Sub t1" ++ closeValue

/-- C2 (the code violates the claim).  With exclusion list `["sub"]`, the
series named `sub t1` matches an exclusion keyword and is recorded in
`rmdir`, and no instances are downloaded for it; but because an earlier
series was (legitimately) named `others`, the folder `save_dir\others`
already exists when the post-loop block runs, so the mis-indented move loop
(nested inside `if ... not os.path.exists(save_dir+"\\others")`) never
executes: the excluded series folder `sub t1` remains a direct child of the
study folder and is NOT under `others`. -/
theorem excluded_series_left_in_place :
    retrieve_study_from_id get_series_name_str none
      [⟨"1.2.3", some metaDocOthers, true, [true]⟩, ⟨"1.2.4", some metaDocSub, true, [true]⟩]
      false (some ["sub"]) false
    = { fs := some ⟨["others", "sub t1"], []⟩,
        events := [Event.mkdir "1.2.3", Event.httpMetadata "1.2.3", Event.writeMeta "1.2.3",
          Event.renameDir "1.2.3" "others", Event.httpInstance "1.2.3" 0,
          Event.writeTemp "others", Event.writeInst "others" 0, Event.removeTemp "others",
          Event.mkdir "1.2.4", Event.httpMetadata "1.2.4", Event.writeMeta "1.2.4",
          Event.renameDir "1.2.4" "sub t1"],
        skipSer := 1, skipInst := 1, rmdir := ["sub t1"] } := by decide

/-- C7 (the code violates the claim).  Source:
`if r is not None: skip_inst += 1` - the skipped-instance counter increments
for each SUCCESSFULLY retrieved instance and stays unchanged on a failed
(non-200) retrieval; on failure no file is written for the instance
(the trace below ends right after the failed instance GET). -/
theorem skipped_counter_counts_successes :
    (retrieve_study_from_id get_series_name_str none
        [⟨"1.2.3", some metaDocSub, true, [false]⟩] false none false).skipInst = 0
    ∧ (retrieve_study_from_id get_series_name_str none
        [⟨"1.2.3", some metaDocSub, true, [true]⟩] false none false).skipInst = 1
    ∧ Event.writeInst "sub t1" 0 ∉ (retrieve_study_from_id get_series_name_str none
        [⟨"1.2.3", some metaDocSub, true, [false]⟩] false none false).events
    ∧ (retrieve_study_from_id get_series_name_str none
        [⟨"1.2.3", some metaDocSub, true, [false]⟩] false none false).events
      = [Event.mkdir "1.2.3", Event.httpMetadata "1.2.3", Event.writeMeta "1.2.3",
         Event.renameDir "1.2.3" "sub t1", Event.httpInstance "1.2.3" 0] := by decide

/-! ### Search-routine models (`collect_studies`, `_search_vna`, `_search_montage`, `save_results`) -/

/-- Python dict assignment `d[k] = v`: replace the value at an existing key
in place, else append the new pair (insertion order is preserved, as in
Python dicts, and drives the query-string order). -/
def dictInsert (k v : String) : List (String × String) → List (String × String)
  | [] => [(k, v)]
  | (k2, v2) :: t => if k2 = k then (k, v) :: t else (k2, v2) :: dictInsert k v t

/-- Source: the query string is the terms joined as `key=value` pairs with
`&`, prefixed by `?`, appended when `len(search_terms) > 0`. -/
def querySuffix (searchTerms : List (String × String)) : String :=
  if searchTerms.length > 0 then
    "?" ++ String.intercalate "&" (searchTerms.map (fun p => p.1 ++ "=" ++ p.2))
  else ""

/-- Host/port selection of `_search_vna` (`region` is `'test'` or `'prod'`;
any other region raises `ValueError("Unsupported region")`). -/
def vnaHost : String → Option (String × String)
  | "test" => some ("vnatest1vt", "8083")
  | "prod" => some ("10.47.11.221", "8083")
  | _ => none

/-- The URL built by `_search_vna` by string concatenation:
`/AcuoREST/dicomrs/search/studies`, plus `/<study_id>/series` and
`/<series>/instances` when those identifiers are given, plus the query
string. -/
def vnaSearchUrl (region : String) (studyId series : Option String)
    (searchTerms : List (String × String)) : Option String :=
  (vnaHost region).map (fun hp =>
    let url := "http://" ++ hp.1 ++ ":" ++ hp.2 ++ "/AcuoREST/dicomrs/search/studies"
    let url2 := match studyId with
      | none => url
      | some sid =>
        let u2 := url ++ "/" ++ sid ++ "/series"
        match series with
        | none => u2
        | some s => u2 ++ "/" ++ s ++ "/instances"
    url2 ++ querySuffix searchTerms)

/-- Model of `_search_vna`: build the URL, issue the GET (the `server`
oracle maps the URL to the response status), then
`if r.status_code == 403: raise ValueError('Access denied. ...')` and
`elif r.status_code >= 500: raise ValueError('Internal server error. ...')`.
-/
def _search_vna (server : String → Nat) (region : String) (studyId series : Option String)
    (searchTerms : List (String × String)) : Except String (Nat × String) :=
  match vnaSearchUrl region studyId series searchTerms with
  | none => Except.error "Unsupported region"
  | some url =>
    if server url = 403 then
      Except.error "Access denied. Probably incorrect login information."
    else if 500 ≤ server url then
      Except.error "Internal server error. Try again in a few minutes or contact IT."
    else Except.ok (server url, url)

/-- All ways to insert `x` into a list (helper for `permsOf`). -/
def insertEverywhere (x : String) : List String → List (List String)
  | [] => [[x]]
  | a :: t => (x :: a :: t) :: (insertEverywhere x t).map (a :: ·)

/-- The permutations of a list, one per ordering, as a structurally
recursive function: this models `itertools.permutations(query_terms)`,
which yields one tuple per ordering of the `n` query terms (the enumeration
order differs from CPython's but the collection of permutations is the
same). -/
def permsOf : List String → List (List String)
  | [] => [[]]
  | a :: t => (permsOf t).flatMap (insertEverywhere a)

/-- One study record of a search response: the fields read out of
`r.json()` (`00080050` accession number, `0020000D` study UID, `00081030`
description, `00080020` date). -/
structure VnaStudyRecord where
  accessionNumber : String
  studyId : String
  description : String
  studyDate : String
deriving DecidableEq

/-- The study-search stage of `collect_studies`: per search type, the list
of study-level search requests issued (one HTTP GET each, first component)
and the extracted `(accession number, study id)` pairs (second component).
The `server` oracle returns `none` for a 204 no-content response - that
term is skipped - and otherwise a non-empty record list (the code indexes
`r.json()[0]` unconditionally).  `"accnum"` sets `AccessionNumber` per term,
`"mrn"` sets `PatientId` per term, and `"keyword"` iterates over ALL
permutations of the term list, setting `StudyDescription` to the terms
joined by `*` wildcards, one request per permutation; any other search type
raises `ValueError`.  (The per-study series/instance enumeration of
`_create_instance_dict` issues its GETs against the `/series` and
`/instances` URLs, not the study-search endpoint.) -/
def collect_studies (server : List (String × String) → Option (VnaStudyRecord × List VnaStudyRecord))
    (search_type : String) (baseTerms : List (String × String)) (queryTerms : List String) :
    Except String (List (List (String × String)) × List (String × String)) :=
  if search_type = "accnum" then
    Except.ok (queryTerms.map (fun t => dictInsert "AccessionNumber" t baseTerms),
      queryTerms.filterMap (fun t =>
        (server (dictInsert "AccessionNumber" t baseTerms)).map (fun r => (t, r.1.studyId))))
  else if search_type = "mrn" then
    Except.ok (queryTerms.map (fun t => dictInsert "PatientId" t baseTerms),
      queryTerms.flatMap (fun t =>
        match server (dictInsert "PatientId" t baseTerms) with
        | none => []
        | some (r, rs) => (r :: rs).map (fun j => (j.accessionNumber, j.studyId))))
  else if search_type = "keyword" then
    Except.ok ((permsOf queryTerms).map (fun ks =>
        dictInsert "StudyDescription" ("*" ++ String.intercalate "*" ks ++ "*") baseTerms),
      (permsOf queryTerms).flatMap (fun ks =>
        match server (dictInsert "StudyDescription" ("*" ++ String.intercalate "*" ks ++ "*") baseTerms) with
        | none => []
        | some (r, rs) => (r :: rs).map (fun j => (j.accessionNumber, j.studyId))))
  else Except.error search_type

theorem length_insertEverywhere (x : String) :
    ∀ (l : List String), (insertEverywhere x l).length = l.length + 1 := by
  intro l
  induction l with
  | nil => rfl
  | cons a t ih => simp [insertEverywhere, ih]

theorem length_mem_insertEverywhere (x : String) :
    ∀ (l p : List String), p ∈ insertEverywhere x l → p.length = l.length + 1 := by
  intro l
  induction l with
  | nil =>
    intro p hp
    rcases List.mem_singleton.mp hp with rfl
    rfl
  | cons a t ih =>
    intro p hp
    rcases List.mem_cons.mp hp with rfl | hp
    · rfl
    · rcases List.mem_map.mp hp with ⟨q, hq, rfl⟩
      simp [ih q hq]

theorem length_mem_permsOf :
    ∀ (l p : List String), p ∈ permsOf l → p.length = l.length := by
  intro l
  induction l with
  | nil =>
    intro p hp
    rcases List.mem_singleton.mp hp with rfl
    rfl
  | cons a t ih =>
    intro p hp
    rcases List.mem_flatMap.mp hp with ⟨q, hq, hp2⟩
    rw [length_mem_insertEverywhere a q p hp2, ih q hq]
    rfl

theorem length_flatMap_insert (x : String) (n : Nat) :
    ∀ (ps : List (List String)), (∀ p ∈ ps, p.length = n) →
      (ps.flatMap (insertEverywhere x)).length = ps.length * (n + 1) := by
  intro ps
  induction ps with
  | nil => intro _; simp
  | cons p ps ih =>
    intro h
    rw [List.flatMap_cons, List.length_append, length_insertEverywhere,
      h p (List.mem_cons_self _ _), ih (fun q hq => h q (List.mem_cons_of_mem _ hq))]
    simp [List.length_cons]
    ring

theorem length_permsOf : ∀ (l : List String), (permsOf l).length = Nat.factorial l.length := by
  intro l
  induction l with
  | nil => rfl
  | cons a t ih =>
    show ((permsOf t).flatMap (insertEverywhere a)).length = Nat.factorial (t.length + 1)
    rw [length_flatMap_insert a t.length (permsOf t) (length_mem_permsOf t), ih,
      Nat.factorial_succ, Nat.mul_comm]

/-- C6 counterexample.  With three keyword query terms the study-search
stage issues 6 GETs (3 factorial) against the search-studies endpoint, not
one per query term (which would be 3). -/
theorem study_search_counterexample :
    ((collect_studies (fun _ => none) "keyword" [] ["a", "b", "c"]).toOption.map
        (fun out => out.1.length)) ≠ some 3 := by decide

/-- C6 amended.  For the accession-number and MRN search types the
study-search stage issues exactly one GET per query term; for the keyword
search type it issues one GET per permutation of the query-term list,
`n` factorial in total. -/
theorem study_search_request_count
    (server : List (String × String) → Option (VnaStudyRecord × List VnaStudyRecord))
    (baseTerms : List (String × String)) (queryTerms : List String) (search_type : String)
    (h : search_type = "accnum" ∨ search_type = "mrn" ∨ search_type = "keyword") :
    ∃ out, collect_studies server search_type baseTerms queryTerms = Except.ok out
      ∧ out.1.length = (if search_type = "keyword" then
          Nat.factorial queryTerms.length else queryTerms.length) := by
  rcases h with rfl | rfl | rfl
  · refine ⟨_, rfl, ?_⟩
    simp [collect_studies]
  · refine ⟨_, rfl, ?_⟩
    simp [collect_studies]
  · refine ⟨_, rfl, ?_⟩
    simp [collect_studies, length_permsOf]

/-- Witness for the amended C6 at a concrete keyword query. -/
theorem study_search_request_count_witness :
    ∃ out, collect_studies (fun _ => none) "keyword" [] ["a", "b", "c"] = Except.ok out
      ∧ out.1.length = (if ("keyword" : String) = "keyword" then
          Nat.factorial (["a", "b", "c"] : List String).length
          else (["a", "b", "c"] : List String).length) :=
  study_search_request_count (fun _ => none) [] ["a", "b", "c"] "keyword"
    (Or.inr (Or.inr rfl))

/-- `_search_montage` unconditionally sets `format` to `json` and `limit`
to `"1"` in the search terms, overwriting caller-supplied values. -/
def montageProcessedTerms (searchTerms : List (String × String)) : List (String × String) :=
  dictInsert "limit" "1" (dictInsert "format" "json" searchTerms)

/-- The Montage URL: `http://montage.ynhh.org/api/v1/index/rad/search/`
plus the query string of the processed terms. -/
def montageSearchUrl (searchTerms : List (String × String)) : String :=
  "http://montage.ynhh.org" ++ "/api/v1/index/rad/search/"
    ++ querySuffix (montageProcessedTerms searchTerms)

/-- Model of `_search_montage` (montage_query.py): process the terms,
issue the GET, and raise on 403 and on server-error statuses. -/
def _search_montage (server : String → Nat) (searchTerms : List (String × String)) :
    Except String (Nat × String) :=
  let url := montageSearchUrl searchTerms
  if server url = 403 then
    Except.error "Access denied. Probably incorrect login information."
  else if 500 ≤ server url then
    Except.error "Server exception. Make sure arguments were specified in the right format."
  else Except.ok (server url, url)

/-- C9. In both search routines, a 403 (forbidden) response makes the call
raise `ValueError` with the access-denied message - modelled as an
`Except.error` - aborting the whole run as an authentication failure
instead of skipping the term. -/
theorem forbidden_aborts_run (serverA serverB : String → Nat) (region url : String)
    (studyId series : Option String) (termsA termsB : List (String × String))
    (hurl : vnaSearchUrl region studyId series termsA = some url)
    (hA : serverA url = 403)
    (hB : serverB (montageSearchUrl termsB) = 403) :
    _search_vna serverA region studyId series termsA
        = Except.error "Access denied. Probably incorrect login information."
    ∧ _search_montage serverB termsB
        = Except.error "Access denied. Probably incorrect login information." := by
  constructor
  · unfold _search_vna
    rw [hurl]
    simp [hA]
  · unfold _search_montage
    simp only []
    rw [hB]
    simp

/-- Witness for C9 with servers that always answer 403. -/
theorem forbidden_aborts_run_witness :
    _search_vna (fun _ => 403) "test" none none []
        = Except.error "Access denied. Probably incorrect login information."
    ∧ _search_montage (fun _ => 403) []
        = Except.error "Access denied. Probably incorrect login information." :=
  forbidden_aborts_run (fun _ => 403) (fun _ => 403) "test"
    "http://vnatest1vt:8083/AcuoREST/dicomrs/search/studies" none none [] []
    (by decide) rfl rfl

/-- One record of the response objects as read by `save_results`:
`patient_mrn`, `accession_number`, `exam_type.description`, the event dates,
and the report text. -/
structure MontageStudy where
  patient_mrn : String
  accession_number : String
  exam_description : String
  events : List (Option String)
  text : String
deriving DecidableEq

/-- Source (`get_first_date`): return the first non-`None` event date,
truncated at the first `T` (via Python `find`, which is `-1` - dropping the
last character - when no `T` occurs), else `"Not found"`. -/
def get_first_date : List (Option String) → String
  | [] => "Not found"
  | some dt :: _ => String.mk (pySlice dt.data 0 (pyFindD dt.data ['T']))
  | none :: rest => get_first_date rest

/-- The fixed CSV header row written by `save_results`. -/
def csvHeader : List String :=
  ["mrn", "accession_number", "exam_description", "approximate date", "text"]

/-- The rows `save_results` writes: the fixed header, then one row per
returned study object. -/
def save_results_rows (objects : List MontageStudy) : List (List String) :=
  csvHeader :: objects.map (fun study =>
    [study.patient_mrn, study.accession_number, study.exam_description,
     get_first_date study.events, study.text])

/-- Decimal parsing of the `limit` parameter (for the server model). -/
def parseLimit (s : String) : Nat :=
  s.data.foldl (fun n c => n * 10 + (c.toNat - ('0' : Char).toNat)) 0

/-- Model of the external Montage reporting service honoring the `limit`
query parameter: it returns at most `limit` of the matching studies. -/
def montageServer (found : List MontageStudy) (params : List (String × String)) :
    List MontageStudy :=
  match params.lookup "limit" with
  | some l => found.take (parseLimit l)
  | none => found

/-- After the dict assignment, looking up the key yields the new value. -/
theorem lookup_dictInsert (k v : String) :
    ∀ (d : List (String × String)), (dictInsert k v d).lookup k = some v := by
  intro d
  induction d with
  | nil => simp [dictInsert, List.lookup]
  | cons p t ih =>
    rcases p with ⟨k2, v2⟩
    by_cases h : k2 = k
    · subst h
      simp [dictInsert, List.lookup]
    · have hbeq : (k == k2) = false := beq_eq_false_iff_ne.mpr (Ne.symm h)
      simp [dictInsert, h, List.lookup, hbeq, ih]

/-- C10. Whatever search terms the caller passes (even ones that already
set a `limit`), `_search_montage` sends `limit=1`; hence however many
studies match, the honoring server returns at most one record, and the CSV
of `save_results` consists of the fixed header row plus at most one data
row. -/
theorem montage_limit_one_row (callerTerms : List (String × String))
    (found : List MontageStudy) :
    (montageProcessedTerms callerTerms).lookup "limit" = some "1"
    ∧ (save_results_rows (montageServer found (montageProcessedTerms callerTerms))).head?
        = some csvHeader
    ∧ (save_results_rows (montageServer found (montageProcessedTerms callerTerms))).length ≤ 2 := by
  have hl : (montageProcessedTerms callerTerms).lookup "limit" = some "1" :=
    lookup_dictInsert "limit" "1" (dictInsert "format" "json" callerTerms)
  refine ⟨hl, rfl, ?_⟩
  unfold montageServer
  rw [hl]
  show (save_results_rows (List.take (parseLimit "1") found)).length ≤ 2
  have h1 : parseLimit "1" = 1 := by decide
  rw [h1]
  unfold save_results_rows
  rw [List.length_cons, List.length_map]
  have := List.length_take_le 1 found
  omega
